import Mathlib

/-!
Verification development for the MetaDAO dashboard data core
(`src/metadao_dashboard.py`). Python floats are embedded as exact
rationals (`ℚ`); a Python value that may be `None` is embedded as
`Option ℚ`. Fallible provider fetches are embedded as explicit inputs
(`Option Pair`, candle lists), so every function is total.
-/

/-- Python truthiness of an optional float: `None` and `0` are falsy. -/
def pytruthy : Option ℚ → Bool
  | none => false
  | some q => decide (q ≠ 0)

/-- The source function `safe_float(value, default)`: `None` (and, in the
source, any unconvertible value) becomes the default, numbers pass through. -/
def safe_float (value : Option ℚ) (d : ℚ) : ℚ := value.getD d

/-- Python `round(x)` to an integer: round half to even. -/
def pyround0 (q : ℚ) : ℤ :=
  if q - ⌊q⌋ < 1/2 then ⌊q⌋
  else if 1/2 < q - ⌊q⌋ then ⌊q⌋ + 1
  else if ⌊q⌋ % 2 = 0 then ⌊q⌋ else ⌊q⌋ + 1

/-- Python `round(x, 2)`: round to two decimal places, half to even. -/
def pyRound2 (q : ℚ) : ℚ := (pyround0 (q * 100) : ℚ) / 100

theorem pyround0_of_lt (q : ℚ) (n : ℤ) (h1 : (n : ℚ) ≤ q) (h2 : q < n + 1/2) :
    pyround0 q = n := by
  have hfl : ⌊q⌋ = n := Int.floor_eq_iff.mpr ⟨h1, by linarith⟩
  rw [pyround0, hfl, if_pos (by linarith)]

theorem pyround0_of_gt (q : ℚ) (n : ℤ) (h1 : (n : ℚ) + 1/2 < q) (h2 : q < n + 1) :
    pyround0 q = n + 1 := by
  have hfl : ⌊q⌋ = n := Int.floor_eq_iff.mpr ⟨by linarith, by linarith⟩
  rw [pyround0, hfl, if_neg (by linarith), if_pos (by linarith)]

/-- Evaluation of `pyRound2` when the scaled value rounds down. -/
theorem pyRound2_eq_low (q : ℚ) (n : ℤ) (h1 : (n : ℚ) ≤ q * 100)
    (h2 : q * 100 < n + 1/2) : pyRound2 q = (n : ℚ) / 100 := by
  rw [pyRound2, pyround0_of_lt (q * 100) n h1 h2]

/-- Evaluation of `pyRound2` when the scaled value rounds up. -/
theorem pyRound2_eq_high (q : ℚ) (n : ℤ) (h1 : (n : ℚ) + 1/2 < q * 100)
    (h2 : q * 100 < n + 1) : pyRound2 q = ((n + 1 : ℤ) : ℚ) / 100 := by
  rw [pyRound2, pyround0_of_gt (q * 100) n h1 h2]

/-- Python `max` over a list of floats (`None` for the empty list, where the
source never calls it). -/
def pymax : List ℚ → Option ℚ
  | [] => none
  | x :: xs =>
    match pymax xs with
    | none => some x
    | some m => some (max x m)

/-- Python `min` over a list of floats (`None` for the empty list). -/
def pymin : List ℚ → Option ℚ
  | [] => none
  | x :: xs =>
    match pymin xs with
    | none => some x
    | some m => some (min x m)

theorem pymax_eq_none {l : List ℚ} : pymax l = none ↔ l = [] := by
  cases l with
  | nil => simp [pymax]
  | cons x xs =>
    cases h : pymax xs <;> simp [pymax, h]

theorem pymax_spec {l : List ℚ} {a : ℚ} (h : pymax l = some a) :
    a ∈ l ∧ ∀ x ∈ l, x ≤ a := by
  induction l generalizing a with
  | nil => simp [pymax] at h
  | cons x xs ih =>
    cases hx : pymax xs with
    | none =>
      rw [pymax, hx] at h
      obtain rfl : x = a := by simpa using h
      have hnil : xs = [] := pymax_eq_none.mp hx
      subst hnil
      simp
    | some m =>
      rw [pymax, hx] at h
      obtain rfl : max x m = a := by simpa using h
      obtain ⟨hmem, hbd⟩ := ih hx
      constructor
      · rcases max_choice x m with hc | hc <;> rw [hc]
        · exact List.mem_cons_self x xs
        · exact List.mem_cons_of_mem x hmem
      · intro y hy
        rcases List.mem_cons.mp hy with rfl | hy
        · exact le_max_left _ _
        · exact le_trans (hbd y hy) (le_max_right _ _)

theorem pymin_eq_none {l : List ℚ} : pymin l = none ↔ l = [] := by
  cases l with
  | nil => simp [pymin]
  | cons x xs =>
    cases h : pymin xs <;> simp [pymin, h]

theorem pymin_spec {l : List ℚ} {a : ℚ} (h : pymin l = some a) :
    a ∈ l ∧ ∀ x ∈ l, a ≤ x := by
  induction l generalizing a with
  | nil => simp [pymin] at h
  | cons x xs ih =>
    cases hx : pymin xs with
    | none =>
      rw [pymin, hx] at h
      obtain rfl : x = a := by simpa using h
      have hnil : xs = [] := pymin_eq_none.mp hx
      subst hnil
      simp
    | some m =>
      rw [pymin, hx] at h
      obtain rfl : min x m = a := by simpa using h
      obtain ⟨hmem, hbd⟩ := ih hx
      constructor
      · rcases min_choice x m with hc | hc <;> rw [hc]
        · exact List.mem_cons_self x xs
        · exact List.mem_cons_of_mem x hmem
      · intro y hy
        rcases List.mem_cons.mp hy with rfl | hy
        · exact min_le_left _ _
        · exact le_trans (min_le_right _ _) (hbd y hy)

/-- The source function `calculate_roi(price, ico_price)`: guarded by Python
truthiness of both arguments and by `ico_price > 0`; both results are rounded
with `round(_, 2)`. The basis is embedded as `Option ℚ` because the guard
also handles a `None` basis. -/
def calculate_roi (price ico_price : Option ℚ) : Option ℚ × Option ℚ :=
  if pytruthy price && pytruthy ico_price && decide (0 < ico_price.getD 0) then
    (some (pyRound2 (price.getD 0 / ico_price.getD 0)),
     some (pyRound2 ((price.getD 0 - ico_price.getD 0) / ico_price.getD 0 * 100)))
  else (none, none)

theorem calculate_roi_pos {p b : ℚ} (hp : p ≠ 0) (hb : 0 < b) :
    calculate_roi (some p) (some b) =
      (some (pyRound2 (p / b)), some (pyRound2 ((p - b) / b * 100))) := by
  have hb0 : b ≠ 0 := ne_of_gt hb
  simp [calculate_roi, pytruthy, hp, hb0, hb]

theorem calculate_roi_obs_none (basis : Option ℚ) :
    calculate_roi none basis = (none, none) := by
  simp [calculate_roi, pytruthy]

theorem calculate_roi_obs_zero (basis : Option ℚ) :
    calculate_roi (some 0) basis = (none, none) := by
  simp [calculate_roi, pytruthy]

theorem calculate_roi_basis_none (price : Option ℚ) :
    calculate_roi price none = (none, none) := by
  simp [calculate_roi, pytruthy]

theorem calculate_roi_basis_nonpos (price : Option ℚ) {b : ℚ} (hb : b ≤ 0) :
    calculate_roi price (some b) = (none, none) := by
  have hnlt : ¬ (0 : ℚ) < (some b).getD 0 := by simpa using not_lt.mpr hb
  have hcond :
      ¬ (pytruthy price && pytruthy (some b)
        && decide ((0 : ℚ) < (some b).getD 0)) = true := by
    simp [hnlt]
    exact fun _ _ => hb
  simp only [calculate_roi]
  rw [if_neg hcond]

/-- C1, counterexample. The claim states the ROI calculator is defined
whenever observed and basis are present and the basis is positive, with
exact (unrounded) results. At observed `0`, basis `1`, the source returns
`(None, None)` (the Python truthiness guard `if price` treats `0` as
missing), although the basis is present and positive and observed is
present; and at observed `1`, basis `3`, the multiple is the rounded
`0.33`, not the exact `1/3`. -/
theorem C1_counterexample :
    (calculate_roi (some 0) (some 1) = (none, none) ∧
      ¬ (some (1 : ℚ) = none ∨ (1 : ℚ) ≤ 0 ∨ some (0 : ℚ) = none)) ∧
    ((calculate_roi (some 1) (some 3)).1 = some (33/100) ∧
      (33 : ℚ)/100 ≠ 1/3) := by
  refine ⟨⟨calculate_roi_obs_zero _, by simp⟩, ?_, by norm_num⟩
  rw [calculate_roi_pos (by norm_num) (by norm_num)]
  have : pyRound2 ((1 : ℚ) / 3) = ((33 : ℤ) : ℚ) / 100 :=
    pyRound2_eq_low _ 33 (by norm_num) (by norm_num)
  rw [this]
  norm_num

/-- C1: the ROI calculator returns `(None, None)` iff the basis is missing,
the basis is not positive, the observed value is missing, or the observed
value is `0`; otherwise it returns the multiple `observed/basis` and the
percent `(observed - basis)/basis * 100`, each rounded to two decimal
places (Python `round(_, 2)`). -/
theorem C1_roi_characterization (price basis : Option ℚ) :
    (calculate_roi price basis = (none, none) ↔
      (price = none ∨ price = some 0 ∨ basis = none ∨
        ∃ b, basis = some b ∧ b ≤ 0)) ∧
    (∀ p b, price = some p → p ≠ 0 → basis = some b → 0 < b →
      calculate_roi price basis =
        (some (pyRound2 (p / b)), some (pyRound2 ((p - b) / b * 100)))) := by
  constructor
  · cases price with
    | none => simp [calculate_roi_obs_none]
    | some p =>
      cases basis with
      | none => simp [calculate_roi_basis_none]
      | some b =>
        by_cases hp : p = 0
        · subst hp
          simp [calculate_roi_obs_zero]
        · by_cases hb : 0 < b
          · rw [calculate_roi_pos hp hb]
            simp only [Prod.mk.injEq]
            constructor
            · rintro ⟨h, -⟩
              exact absurd h (by simp)
            · rintro (h | h | h | ⟨b2, hb2, hle⟩)
              · exact absurd h (by simp)
              · exact absurd (by simpa using h) hp
              · exact absurd h (by simp)
              · rw [Option.some.injEq] at hb2
                subst hb2
                exact absurd hle (not_le.mpr hb)
          · rw [calculate_roi_basis_nonpos _ (not_lt.mp hb)]
            simp only [true_iff]
            exact Or.inr (Or.inr (Or.inr ⟨b, rfl, not_lt.mp hb⟩))
  · rintro p b rfl hp rfl hb
    exact calculate_roi_pos hp hb

/-- C1, witness: the characterization applied at observed `3`, basis `2`
(no rounding is needed there, so the multiple is exactly `3/2` and the
percent exactly `50`). -/
theorem C1_witness :
    calculate_roi (some 3) (some 2) = (some (3/2), some 50) := by
  have h := (C1_roi_characterization (some 3) (some 2)).2 3 2 rfl
    (by norm_num) rfl (by norm_num)
  rw [h, pyRound2_eq_low ((3 : ℚ) / 2) 150 (by norm_num) (by norm_num),
    pyRound2_eq_low (((3 : ℚ) - 2) / 2 * 100) 5000 (by norm_num) (by norm_num)]
  norm_num

/-!
Extrema Calculator: `calculate_ath_atl_from_ohlcv`. A candle is embedded
as the list of its numeric entries `[timestamp, open, high, low, close,
volume]`; a field is "missing" when the list is shorter than 5 entries.
-/

/-- `candle[i]` (only used under a length guard in the source). -/
def cfield (c : List ℚ) (i : Nat) : ℚ := c.getD i 0

/-- The high-side filter of the source comprehension
`len(candle) >= 5 and candle[2]`: the high entry is present and truthy
(non-zero). Note a negative high passes this filter. -/
def highOk (c : List ℚ) : Prop := 5 ≤ c.length ∧ cfield c 2 ≠ 0

/-- The low-side filter of the source comprehension
`len(candle) >= 5 and candle[3] and candle[3] > 0`. -/
def lowOk (c : List ℚ) : Prop := 5 ≤ c.length ∧ cfield c 3 ≠ 0 ∧ 0 < cfield c 3

instance (c : List ℚ) : Decidable (highOk c) := by unfold highOk; infer_instance

instance (c : List ℚ) : Decidable (lowOk c) := by unfold lowOk; infer_instance

/-- The source function `calculate_ath_atl_from_ohlcv`: the max of the
filtered highs and the min of the filtered lows, `None` when a filtered
list is empty, `(None, None)` for an empty series. -/
def calculate_ath_atl_from_ohlcv (ohlcv : List (List ℚ)) : Option ℚ × Option ℚ :=
  if ohlcv = [] then (none, none)
  else
    let highs := ohlcv.filterMap (fun c => if highOk c then some (cfield c 2) else none)
    let lows := ohlcv.filterMap (fun c => if lowOk c then some (cfield c 3) else none)
    (pymax highs, pymin lows)

/-- C3, counterexample. The claim states that a candle whose high is
non-positive is ignored, so a series whose only candle has high `-1`
(and low `1`) should report a null ATH. The source filter keeps any
non-zero high, so the ATH is `-1`, not null. -/
theorem C3_counterexample :
    (calculate_ath_atl_from_ohlcv [[0, 0, -1, 1, 0, 0]]).1 = some (-1) ∧
      some (-1 : ℚ) ≠ (none : Option ℚ) := by
  constructor
  · norm_num [calculate_ath_atl_from_ohlcv, highOk, lowOk, cfield, pymax, pymin,
      List.filterMap_cons]
  · simp

/-- C3: over any candle series the extrema calculator returns, on the high
side, the maximum of `candle[2]` over candles with at least 5 entries and a
non-zero high (null iff there is no such candle), and, on the low side, the
minimum of `candle[3]` over candles with at least 5 entries and a positive
low (null iff there is no such candle); the two filters are applied
independently per field. -/
theorem C3_extrema_characterization (data : List (List ℚ)) :
    ((calculate_ath_atl_from_ohlcv data).1 = none ↔ ∀ c ∈ data, ¬ highOk c) ∧
    (∀ a, (calculate_ath_atl_from_ohlcv data).1 = some a →
      (∃ c ∈ data, highOk c ∧ cfield c 2 = a) ∧
        ∀ c ∈ data, highOk c → cfield c 2 ≤ a) ∧
    ((calculate_ath_atl_from_ohlcv data).2 = none ↔ ∀ c ∈ data, ¬ lowOk c) ∧
    (∀ a, (calculate_ath_atl_from_ohlcv data).2 = some a →
      (∃ c ∈ data, lowOk c ∧ cfield c 3 = a) ∧
        ∀ c ∈ data, lowOk c → a ≤ cfield c 3) := by
  by_cases hnil : data = []
  · subst hnil
    simp [calculate_ath_atl_from_ohlcv]
  · simp only [calculate_ath_atl_from_ohlcv, if_neg hnil]
    refine ⟨?_, ?_, ?_, ?_⟩
    · rw [pymax_eq_none, List.filterMap_eq_nil_iff]
      constructor
      · intro h c hc
        have := h c hc
        by_contra hok
        rw [if_pos hok] at this
        exact Option.some_ne_none _ this
      · intro h c hc
        rw [if_neg (h c hc)]
    · intro a ha
      obtain ⟨hmem, hbd⟩ := pymax_spec ha
      constructor
      · rcases List.mem_filterMap.mp hmem with ⟨c, hc, hfc⟩
        by_cases hok : highOk c
        · rw [if_pos hok] at hfc
          exact ⟨c, hc, hok, by simpa using hfc⟩
        · rw [if_neg hok] at hfc
          exact absurd hfc (Option.noConfusion)
      · intro c hc hok
        refine hbd _ (List.mem_filterMap.mpr ⟨c, hc, ?_⟩)
        rw [if_pos hok]
    · rw [pymin_eq_none, List.filterMap_eq_nil_iff]
      constructor
      · intro h c hc
        have := h c hc
        by_contra hok
        rw [if_pos hok] at this
        exact Option.some_ne_none _ this
      · intro h c hc
        rw [if_neg (h c hc)]
    · intro a ha
      obtain ⟨hmem, hbd⟩ := pymin_spec ha
      constructor
      · rcases List.mem_filterMap.mp hmem with ⟨c, hc, hfc⟩
        by_cases hok : lowOk c
        · rw [if_pos hok] at hfc
          exact ⟨c, hc, hok, by simpa using hfc⟩
        · rw [if_neg hok] at hfc
          exact absurd hfc (Option.noConfusion)
      · intro c hc hok
        refine hbd _ (List.mem_filterMap.mpr ⟨c, hc, ?_⟩)
        rw [if_pos hok]

/-- The example series of the spec: highs `[1, 5, 3]`, lows
`[0.5, 0.2, 0.9]`. -/
def specExampleSeries : List (List ℚ) :=
  [[0, 0, 1, 0.5, 0, 0], [0, 0, 5, 0.2, 0, 0], [0, 0, 3, 0.9, 0, 0]]

/-- C3, witness: on the spec example series the result is `(5, 0.2)`, and
the characterization applied there bounds the first candle high by the
ATH. -/
theorem C3_witness :
    calculate_ath_atl_from_ohlcv specExampleSeries = (some 5, some 0.2) ∧
      cfield [0, 0, 1, 0.5, 0, 0] 2 ≤ 5 := by
  have h : calculate_ath_atl_from_ohlcv specExampleSeries = (some 5, some 0.2) := by
    norm_num [calculate_ath_atl_from_ohlcv, specExampleSeries, highOk, lowOk,
      cfield, pymax, pymin, List.filterMap_cons]
    intro h
    exact absurd h (by simp)
  refine ⟨h, ?_⟩
  exact ((C3_extrema_characterization specExampleSeries).2.1 5
      (by rw [h])).2 _ (by simp [specExampleSeries]) (by norm_num [highOk, cfield])

/-!
Candle Locator: `get_price_at_timestamp(ohlcv_data, target_timestamp,
tolerance_seconds)`.
-/

/-- Distance of a candle timestamp (`candle[0]`) from the target, the
`abs(candle_ts - target_timestamp)` of the source. -/
def cdist (target : ℚ) (c : List ℚ) : ℚ := |cfield c 0 - target|

/-- Does a candidate distance beat the best so far? This is the strict
comparison `diff < min_diff` of the source loop, where `none` embeds the
initial `float(inf)` sentinel. -/
def beatsBest (d : ℚ) : Option (ℚ × List ℚ) → Bool
  | none => true
  | some md => decide (d < md.1)

/-- The accumulation loop of `get_price_at_timestamp`: scans the candles in
order keeping `(min_diff, closest_candle)`; a candle with at least 5 entries
replaces the best when it strictly improves the distance and lies within the
tolerance. -/
def gpats_loop (target tol : ℚ) :
    Option (ℚ × List ℚ) → List (List ℚ) → Option (ℚ × List ℚ)
  | best, [] => best
  | best, c :: rest =>
    if 5 ≤ c.length then
      if beatsBest (cdist target c) best && decide (cdist target c ≤ tol) then
        gpats_loop target tol (some (cdist target c, c)) rest
      else gpats_loop target tol best rest
    else gpats_loop target tol best rest

/-- The source function `get_price_at_timestamp`: `None` for an empty series
or a falsy (zero) target timestamp; otherwise the close (`candle[4]`) of the
candle kept by the loop, `None` when no candle qualified. -/
def get_price_at_timestamp (ohlcv : List (List ℚ)) (target tol : ℚ) : Option ℚ :=
  if ohlcv = [] ∨ target = 0 then none
  else (gpats_loop target tol none ohlcv).map (fun md => cfield md.2 4)

/-- Reference recursion for the locator: among candles with at least 5
entries and distance within tolerance, the minimal distance paired with the
first candle attaining it. -/
def refLoc (target tol : ℚ) : List (List ℚ) → Option (ℚ × List ℚ)
  | [] => none
  | c :: rest =>
    if 5 ≤ c.length ∧ cdist target c ≤ tol then
      match refLoc target tol rest with
      | none => some (cdist target c, c)
      | some md =>
        if cdist target c ≤ md.1 then some (cdist target c, c) else some md
    else refLoc target tol rest

theorem gpats_loop_some (target tol : ℚ) (l : List (List ℚ)) :
    ∀ (m : ℚ) (c0 : List ℚ), m ≤ tol →
      gpats_loop target tol (some (m, c0)) l =
        match refLoc target tol l with
        | none => some (m, c0)
        | some md => if md.1 < m then some md else some (m, c0) := by
  induction l with
  | nil =>
    intro m c0 hm
    simp [gpats_loop, refLoc]
  | cons c rest ih =>
    intro m c0 hm
    by_cases hlen : 5 ≤ c.length
    · by_cases hdm : cdist target c < m
      · have hdtol : cdist target c ≤ tol := le_trans (le_of_lt hdm) hm
        rw [gpats_loop, if_pos hlen,
          if_pos (by simp [beatsBest, hdm, hdtol]), ih _ _ hdtol]
        simp only [refLoc, if_pos (And.intro hlen hdtol)]
        cases hr : refLoc target tol rest with
        | none => simp [hdm]
        | some md =>
          by_cases hcm : cdist target c ≤ md.1
          · simp [hcm, not_lt.mpr hcm, hdm]
          · simp [hcm, not_le.mp hcm, lt_trans (not_le.mp hcm) hdm]
      · rw [gpats_loop, if_pos hlen,
          if_neg (by simp [beatsBest, hdm]), ih _ _ hm]
        by_cases hdtol : cdist target c ≤ tol
        · simp only [refLoc, if_pos (And.intro hlen hdtol)]
          cases hr : refLoc target tol rest with
          | none => simp [hdm]
          | some md =>
            by_cases hcm : cdist target c ≤ md.1
            · have hnm : ¬ md.1 < m := not_lt.mpr (le_trans (not_lt.mp hdm) hcm)
              simp [hcm, hdm, hnm]
            · simp [hcm]
        · simp only [refLoc]
          rw [if_neg (by tauto)]
    · rw [gpats_loop, if_neg hlen, ih _ _ hm]
      simp only [refLoc]
      rw [if_neg (by tauto)]

theorem gpats_loop_none (target tol : ℚ) (l : List (List ℚ)) :
    gpats_loop target tol none l = refLoc target tol l := by
  induction l with
  | nil => rfl
  | cons c rest ih =>
    by_cases hlen : 5 ≤ c.length
    · by_cases hdtol : cdist target c ≤ tol
      · rw [gpats_loop, if_pos hlen, if_pos (by simp [beatsBest, hdtol]),
          gpats_loop_some target tol rest _ _ hdtol]
        simp only [refLoc, if_pos (And.intro hlen hdtol)]
        cases hr : refLoc target tol rest with
        | none => rfl
        | some md =>
          by_cases hcm : cdist target c ≤ md.1
          · simp [hcm, not_lt.mpr hcm]
          · simp [hcm, not_le.mp hcm]
      · rw [gpats_loop, if_pos hlen, if_neg (by simp [beatsBest, hdtol]), ih]
        simp only [refLoc]
        rw [if_neg (by tauto)]
    · rw [gpats_loop, if_neg hlen, ih]
      simp only [refLoc]
      rw [if_neg (by tauto)]

theorem refLoc_eq_none (target tol : ℚ) (l : List (List ℚ)) :
    refLoc target tol l = none ↔
      ∀ c ∈ l, ¬ (5 ≤ c.length ∧ cdist target c ≤ tol) := by
  induction l with
  | nil => simp [refLoc]
  | cons c rest ih =>
    by_cases h : 5 ≤ c.length ∧ cdist target c ≤ tol
    · simp only [refLoc, if_pos h]
      cases hr : refLoc target tol rest with
      | none => simp [h]
      | some md =>
        by_cases hcm : cdist target c ≤ md.1 <;> simp [hcm, h]
    · simp only [refLoc, if_neg h]
      rw [ih]
      constructor
      · intro hall x hx
        rcases List.mem_cons.mp hx with rfl | hx
        · exact h
        · exact hall x hx
      · intro hall x hx
        exact hall x (List.mem_cons_of_mem _ hx)

theorem refLoc_spec (target tol : ℚ) (l : List (List ℚ)) (md : ℚ × List ℚ)
    (h : refLoc target tol l = some md) :
    md.2 ∈ l ∧ 5 ≤ md.2.length ∧ cdist target md.2 = md.1 ∧ md.1 ≤ tol ∧
      ∀ c ∈ l, 5 ≤ c.length → md.1 ≤ cdist target c := by
  induction l generalizing md with
  | nil => simp [refLoc] at h
  | cons c rest ih =>
    by_cases hc : 5 ≤ c.length ∧ cdist target c ≤ tol
    · simp only [refLoc, if_pos hc] at h
      cases hr : refLoc target tol rest with
      | none =>
        rw [hr] at h
        obtain rfl : (cdist target c, c) = md := by simpa using h
        refine ⟨List.mem_cons_self _ _, hc.1, rfl, hc.2, ?_⟩
        intro x hx hlen
        rcases List.mem_cons.mp hx with rfl | hx
        · exact le_refl _
        · have hout := (refLoc_eq_none target tol rest).mp hr x hx
          have : ¬ cdist target x ≤ tol := fun hd => hout ⟨hlen, hd⟩
          exact le_trans hc.2 (le_of_lt (not_le.mp this))
      | some md2 =>
        rw [hr] at h
        simp only [] at h
        obtain ⟨hm2, hl2, hd2, ht2, hb2⟩ := ih md2 hr
        by_cases hcmp : cdist target c ≤ md2.1
        · rw [if_pos hcmp] at h
          obtain rfl : (cdist target c, c) = md := by simpa using h
          refine ⟨List.mem_cons_self _ _, hc.1, rfl, hc.2, ?_⟩
          intro x hx hlen
          rcases List.mem_cons.mp hx with rfl | hx
          · exact le_refl _
          · exact le_trans hcmp (hb2 x hx hlen)
        · rw [if_neg hcmp] at h
          obtain rfl : md2 = md := by simpa using h
          refine ⟨List.mem_cons_of_mem _ hm2, hl2, hd2, ht2, ?_⟩
          intro x hx hlen
          rcases List.mem_cons.mp hx with rfl | hx
          · exact le_of_lt (not_le.mp hcmp)
          · exact hb2 x hx hlen
    · simp only [refLoc, if_neg hc] at h
      obtain ⟨hm, hl, hd, ht, hb⟩ := ih md h
      refine ⟨List.mem_cons_of_mem _ hm, hl, hd, ht, ?_⟩
      intro x hx hlen
      rcases List.mem_cons.mp hx with rfl | hx
      · have : ¬ cdist target x ≤ tol := fun hdd => hc ⟨hlen, hdd⟩
        exact le_trans ht (le_of_lt (not_le.mp this))
      · exact hb x hx hlen

/-- The candles the source loop can consider: those with at least 5
entries. -/
def validCandles (data : List (List ℚ)) : List (List ℚ) :=
  data.filter (fun c => decide (5 ≤ c.length))

/-- The spec selection predicate: within tolerance and at minimal distance
among all considered candles. -/
def locPred (target tol : ℚ) (v : List (List ℚ)) (c : List ℚ) : Bool :=
  decide (cdist target c ≤ tol) &&
    decide (∀ x ∈ v, cdist target c ≤ cdist target x)

/-- Modelled from the spec: return the close price of the candle whose
timestamp is closest to the target, provided the absolute difference is
within the tolerance, breaking equal-distance ties in favor of the candle
encountered first in input order; otherwise null. -/
def locate_spec (data : List (List ℚ)) (target tol : ℚ) : Option ℚ :=
  ((validCandles data).find?
      (locPred target tol (validCandles data))).map (fun c => cfield c 4)

theorem mem_validCandles {c : List ℚ} {l : List (List ℚ)} :
    c ∈ validCandles l ↔ c ∈ l ∧ 5 ≤ c.length := by
  simp [validCandles]

theorem find?_ext {α : Type} (p q : α → Bool) (l : List α)
    (h : ∀ x ∈ l, p x = q x) : l.find? p = l.find? q := by
  induction l with
  | nil => rfl
  | cons x xs ih =>
    have hx := h x (List.mem_cons_self x xs)
    by_cases hq : q x = true
    · rw [List.find?_cons_of_pos _ (hx.trans hq), List.find?_cons_of_pos _ hq]
    · rw [List.find?_cons_of_neg _ (by simp only [hx]; simpa using hq),
        List.find?_cons_of_neg _ (by simpa using hq)]
      exact ih fun y hy => h y (List.mem_cons_of_mem _ hy)

theorem locPred_eq_true {target tol : ℚ} {v : List (List ℚ)} {c : List ℚ} :
    locPred target tol v c = true ↔
      cdist target c ≤ tol ∧ ∀ x ∈ v, cdist target c ≤ cdist target x := by
  simp [locPred]


theorem refLoc_find (target tol : ℚ) (l : List (List ℚ)) :
    (refLoc target tol l).map Prod.snd =
      (validCandles l).find? (locPred target tol (validCandles l)) := by
  induction l with
  | nil => rfl
  | cons c rest ih =>
    by_cases hlen : 5 ≤ c.length
    · have hv : validCandles (c :: rest) = c :: validCandles rest := by
        simp [validCandles, List.filter_cons, hlen]
      rw [hv]
      cases hr : refLoc target tol rest with
      | none =>
        have hnone := (refLoc_eq_none target tol rest).mp hr
        have hrestout : ∀ x ∈ validCandles rest, ¬ cdist target x ≤ tol := by
          intro x hx
          obtain ⟨hxm, hxl⟩ := mem_validCandles.mp hx
          exact fun hd => hnone x hxm ⟨hxl, hd⟩
        by_cases hdtol : cdist target c ≤ tol
        · simp only [refLoc, if_pos (And.intro hlen hdtol), hr]
          have hp : locPred target tol (c :: validCandles rest) c = true := by
            rw [locPred_eq_true]
            refine ⟨hdtol, ?_⟩
            intro x hx
            rcases List.mem_cons.mp hx with rfl | hx
            · exact le_refl _
            · exact le_trans hdtol (le_of_lt (not_le.mp (hrestout x hx)))
          rw [List.find?_cons_of_pos _ hp]
          rfl
        · simp only [refLoc]
          rw [if_neg (by tauto), hr]
          refine (List.find?_eq_none.mpr ?_).symm
          intro x hx
          rcases List.mem_cons.mp hx with rfl | hx
          · simp only [locPred_eq_true, not_and]
            intro hd
            exact absurd hd hdtol
          · simp only [locPred_eq_true, not_and]
            intro hd
            exact absurd hd (hrestout x hx)
      | some md =>
        obtain ⟨hm2, hl2, hd2, ht2, hb2⟩ := refLoc_spec target tol rest md hr
        have hmdv : md.2 ∈ validCandles rest := mem_validCandles.mpr ⟨hm2, hl2⟩
        have hskip :
            md.1 ≤ cdist target c →
            locPred target tol (c :: validCandles rest) c = false →
            (refLoc target tol rest).map Prod.snd =
              (c :: validCandles rest).find?
                (locPred target tol (c :: validCandles rest)) := by
          intro hcd hcfalse
          rw [List.find?_cons_of_neg _ (by simp [hcfalse])]
          rw [find?_ext (locPred target tol (c :: validCandles rest))
            (locPred target tol (validCandles rest)) (validCandles rest) ?_]
          · exact ih
          · intro x hx
            simp only [locPred]
            have hiff :
                (∀ y ∈ c :: validCandles rest,
                    cdist target x ≤ cdist target y) ↔
                (∀ y ∈ validCandles rest, cdist target x ≤ cdist target y) := by
              constructor
              · intro hall y hy
                exact hall y (List.mem_cons_of_mem _ hy)
              · intro hall y hy
                rcases List.mem_cons.mp hy with rfl | hy
                · exact le_trans (le_trans (hall md.2 hmdv) (le_of_eq hd2)) hcd
                · exact hall y hy
            rw [decide_eq_decide.mpr hiff]
        by_cases hdtol : cdist target c ≤ tol
        · simp only [refLoc, if_pos (And.intro hlen hdtol), hr]
          by_cases hcm : cdist target c ≤ md.1
          · rw [if_pos hcm]
            have hp : locPred target tol (c :: validCandles rest) c = true := by
              rw [locPred_eq_true]
              refine ⟨hdtol, ?_⟩
              intro x hx
              rcases List.mem_cons.mp hx with rfl | hx
              · exact le_refl _
              · obtain ⟨hxm, hxl⟩ := mem_validCandles.mp hx
                exact le_trans hcm (hb2 x hxm hxl)
            rw [List.find?_cons_of_pos _ hp]
            rfl
          · rw [if_neg hcm]
            have hlt : md.1 < cdist target c := not_le.mp hcm
            have hcfalse : locPred target tol (c :: validCandles rest) c = false := by
              rw [Bool.eq_false_iff]
              intro hc
              obtain ⟨-, hall⟩ := locPred_eq_true.mp hc
              have := le_trans (hall md.2 (List.mem_cons_of_mem _ hmdv)) (le_of_eq hd2)
              exact absurd hlt (not_lt.mpr this)
            rw [← hskip (le_of_lt hlt) hcfalse, hr]
        · simp only [refLoc]
          rw [if_neg (by tauto)]
          have hlt : md.1 < cdist target c :=
            lt_of_le_of_lt ht2 (not_le.mp hdtol)
          have hcfalse : locPred target tol (c :: validCandles rest) c = false := by
            rw [Bool.eq_false_iff]
            intro hc
            obtain ⟨hd, -⟩ := locPred_eq_true.mp hc
            exact absurd hd hdtol
          rw [← hskip (le_of_lt hlt) hcfalse, hr]
    · have hv : validCandles (c :: rest) = validCandles rest := by
        simp [validCandles, List.filter_cons, hlen]
      simp only [refLoc]
      rw [if_neg (by tauto), hv]
      exact ih

/-- C6, counterexample. The claim quantifies over every target timestamp,
but the guard `if not ohlcv_data or not target_timestamp` of the source
treats the target `0` as missing: for a series containing a candle at
timestamp `0` with close `7` and tolerance `10`, the locator returns null
although the claim (the spec selection rule, `locate_spec`) requires the
close `7`. -/
theorem C6_counterexample :
    get_price_at_timestamp [[0, 1, 1, 1, 7, 0]] 0 10 = none ∧
      locate_spec [[0, 1, 1, 1, 7, 0]] 0 10 = some 7 := by
  constructor
  · simp [get_price_at_timestamp]
  · norm_num [locate_spec, validCandles, locPred, cdist, cfield,
      List.filter_cons, List.find?_cons]

/-- C6: for every candle series, every non-zero target timestamp and every
tolerance, the locator agrees with the spec selection rule: the close price
of the candle whose timestamp is closest to the target provided that
distance is within the tolerance (equal-distance ties resolved in favor of
the first candle in input order), and null when no candle is within the
tolerance. -/
theorem C6_locator_eq_spec (data : List (List ℚ)) (target tol : ℚ)
    (ht : target ≠ 0) :
    get_price_at_timestamp data target tol = locate_spec data target tol := by
  by_cases hnil : data = []
  · subst hnil
    simp [get_price_at_timestamp, locate_spec, validCandles]
  · rw [get_price_at_timestamp, if_neg (by simp [hnil, ht]), gpats_loop_none]
    have hchain :
        (refLoc target tol data).map (fun md => cfield md.2 4) =
          ((refLoc target tol data).map Prod.snd).map (fun c => cfield c 4) := by
      cases refLoc target tol data <;> rfl
    rw [hchain, refLoc_find]
    rfl

/-- C6, witness: the equivalence applied to a singleton series with a candle
at timestamp `100` and close `7`, target `100`, tolerance `300`; both sides
return the close `7`. -/
theorem C6_witness :
    get_price_at_timestamp [[100, 0, 0, 0, 7, 0]] 100 300 =
        locate_spec [[100, 0, 0, 0, 7, 0]] 100 300 ∧
      locate_spec [[100, 0, 0, 0, 7, 0]] 100 300 = some 7 := by
  refine ⟨C6_locator_eq_spec _ _ _ (by norm_num), ?_⟩
  norm_num [locate_spec, validCandles, locPred, cdist, cfield,
    List.filter_cons, List.find?_cons]

/-!
Pair Selector: the venue-selection step of `fetch_dexscreener_token`.
A trading venue is embedded with the payload fields the dashboard reads.
-/

structure Pair where
  priceUsd : Option ℚ
  pairAddress : Option String
  liqUsd : Option ℚ
  priceChangeH24 : Option ℚ
  volumeH24 : Option ℚ
  marketCap : Option ℚ

/-- The sort key `float(x.get("liquidity", {}).get("usd", 0) or 0)`:
a missing or `None` (or zero) liquidity counts as `0`. -/
def pairKey (p : Pair) : ℚ := p.liqUsd.getD 0

/-- Stable insertion into a descending-sorted list: the new element (which
precedes the list elements in input order) is placed before the first
element whose key is not larger, so ties keep input order. -/
def insertDesc (key : Pair → ℚ) (x : Pair) : List Pair → List Pair
  | [] => [x]
  | y :: ys => if key x < key y then y :: insertDesc key x ys else x :: y :: ys

/-- Stable descending sort, modelling Python
`sorted(pairs, key=liquidity, reverse=True)` (Python sort is stable and
`reverse=True` preserves the input order of equal keys). -/
def sortedDesc (key : Pair → ℚ) : List Pair → List Pair
  | [] => []
  | x :: xs => insertDesc key x (sortedDesc key xs)

/-- The venue selection of `fetch_dexscreener_token`: sort the venues by
liquidity, descending and stable, and return the first (`pairs[0]`); the
empty result (`{}`, embedded as `none`) when the venue list is empty. -/
def select_pair (pairs : List Pair) : Option Pair :=
  if pairs.isEmpty then none else (sortedDesc pairKey pairs).head?

/-- Modelled from the spec: the single venue with the highest liquidity,
ties broken by input order (first seen wins); empty output for the empty
set. -/
def pair_selector_spec (key : Pair → ℚ) : List Pair → Option Pair
  | [] => none
  | x :: xs =>
    match pair_selector_spec key xs with
    | none => some x
    | some y => if key x < key y then some y else some x

theorem head?_insertDesc (key : Pair → ℚ) (x : Pair) (s : List Pair) :
    (insertDesc key x s).head? =
      some (match s.head? with
            | none => x
            | some y => if key x < key y then y else x) := by
  cases s with
  | nil => rfl
  | cons y ys =>
    by_cases h : key x < key y <;> simp [insertDesc, h]

theorem sortedDesc_head (key : Pair → ℚ) (l : List Pair) :
    (sortedDesc key l).head? = pair_selector_spec key l := by
  induction l with
  | nil => rfl
  | cons x xs ih =>
    simp only [sortedDesc, head?_insertDesc, ih, pair_selector_spec]
    cases pair_selector_spec key xs with
    | none => rfl
    | some y => by_cases h : key x < key y <;> simp [h]

/-- C7: the pair selector returns exactly the first-seen venue of maximal
reported liquidity, and the empty result on the empty venue list — the
source selection (stable descending sort, then first element) equals the
spec selection rule. -/
theorem C7_selector_eq_spec (pairs : List Pair) :
    select_pair pairs = pair_selector_spec pairKey pairs := by
  cases pairs with
  | nil => rfl
  | cons x xs =>
    rw [select_pair, if_neg (by simp), sortedDesc_head]

/-!
Static asset configuration (`METADAO_TOKENS`) and the per-asset Record
built by `get_all_token_data`. Optional dict keys (read with `.get`) are
embedded as `Option` fields; keys read with `info[...]` are plain fields.
-/

structure AssetInfo where
  name : String
  mint : String
  icoPrice : ℚ
  launchPrice : Option ℚ
  committedUsd : Option ℚ
  icoRaiseUsd : ℚ
  minRaiseUsd : Option ℚ
  allowanceUsd : Option ℚ
  saleTokens : ℚ
  totalSupply : ℚ
  icoDate : String
  tgeTimestamp : Option ℚ
  contributors : Option ℚ
  oversubscription : Option ℚ
  isPermissionless : Option Bool
  description : String
  category : String

/-- Configuration entry for MTNC. -/
def tokMTNC : AssetInfo :=
  { name := "mtnCapital"
    mint := "mtnc7NNSpAJuvYNmayXU63WhWZGgFzwQ2yeYWqemeta"
    icoPrice := 0.576
    launchPrice := some 0.576
    committedUsd := some 5758964
    icoRaiseUsd := 5758964
    minRaiseUsd := some 0
    allowanceUsd := none
    saleTokens := 10000000
    totalSupply := 25000000
    icoDate := "2025-04-09"
    tgeTimestamp := none
    contributors := some 1931
    oversubscription := some 1.0
    isPermissionless := some false
    description := "First futarchy-governed investment fund"
    category := "Investment Fund"}

/-- Configuration entry for OMFG. -/
def tokOMFG : AssetInfo :=
  { name := "Omnipair"
    mint := "omfgRBnxHsNJh6YeGbGAmWenNkenzsXyBXm3WDhmeta"
    icoPrice := 0.112
    launchPrice := some 0.112
    committedUsd := some 1118102
    icoRaiseUsd := 1118102
    minRaiseUsd := some 300000
    allowanceUsd := none
    saleTokens := 10000000
    totalSupply := 12000000
    icoDate := "2025-07-28"
    tgeTimestamp := none
    contributors := some 321
    oversubscription := some 3.73
    isPermissionless := some false
    description := "Permissionless borrowing and leverage on Solana"
    category := "DeFi"}

/-- Configuration entry for UMBRA. -/
def tokUMBRA : AssetInfo :=
  { name := "Umbra"
    mint := "PRVT6TB7uss3FrUd2D9xs2zqDBsa3GbMJMwCQsgmeta"
    icoPrice := 0.30
    launchPrice := some 0.30
    committedUsd := some 154943746
    icoRaiseUsd := 3000000
    minRaiseUsd := some 750000
    allowanceUsd := some 34091
    saleTokens := 10000000
    totalSupply := 28500000
    icoDate := "2025-10-06"
    tgeTimestamp := none
    contributors := some 10519
    oversubscription := some 206.59
    isPermissionless := some false
    description := "Privacy for swaps and transfers, built on Arcium"
    category := "Privacy"}

/-- Configuration entry for AVICI. -/
def tokAVICI : AssetInfo :=
  { name := "Avici"
    mint := "BANKJmvhT8tiJRsBSS1n2HryMBPvT5Ze4HU95DUAmeta"
    icoPrice := 0.35
    launchPrice := some 0.35
    committedUsd := some 34230976
    icoRaiseUsd := 3500000
    minRaiseUsd := some 2000000
    allowanceUsd := some 100000
    saleTokens := 10000000
    totalSupply := 100000000
    icoDate := "2025-10-14"
    tgeTimestamp := none
    contributors := some 7352
    oversubscription := some 17.12
    isPermissionless := some false
    description := "Distributed Internet banking infrastructure"
    category := "Payments"}

/-- Configuration entry for LOYAL. -/
def tokLOYAL : AssetInfo :=
  { name := "Loyal"
    mint := "LYLikzBQtpa9ZgVrJsqYGQpR3cC1WMJrBHaXGrQmeta"
    icoPrice := 0.25
    launchPrice := some 0.25
    committedUsd := some 75898233
    icoRaiseUsd := 2500000
    minRaiseUsd := some 500000
    allowanceUsd := some 60000
    saleTokens := 10000000
    totalSupply := 20976923
    icoDate := "2025-10-18"
    tgeTimestamp := none
    contributors := some 5058
    oversubscription := some 151.80
    isPermissionless := some true
    description := "Solana-based private decentralized intelligence"
    category := "AI/Privacy"}

/-- Configuration entry for ZKLSOL. -/
def tokZKLSOL : AssetInfo :=
  { name := "ZKLSOL"
    mint := "ZKFHiLAfAFMTcDAuCtjNW54VzpERvoe7PBF9mYgmeta"
    icoPrice := 0.097
    launchPrice := some 0.097
    committedUsd := some 14886359
    icoRaiseUsd := 969420
    minRaiseUsd := some 300000
    allowanceUsd := some 50000
    saleTokens := 10000000
    totalSupply := 100000000
    icoDate := "2025-10-19"
    tgeTimestamp := none
    contributors := some 2290
    oversubscription := some 49.62
    isPermissionless := some true
    description := "Permissionless yield generating privacy protocol"
    category := "Privacy/LST"}

/-- Configuration entry for PAYSTREAM. -/
def tokPAYSTREAM : AssetInfo :=
  { name := "Paystream"
    mint := "PAYZP1W3UmdEsNLJwmH61TNqACYJTvhXy8SCN4Tmeta"
    icoPrice := 0.075
    launchPrice := some 0.075
    committedUsd := some 6149247
    icoRaiseUsd := 750000
    minRaiseUsd := some 550000
    allowanceUsd := some 33500
    saleTokens := 10000000
    totalSupply := 30000000
    icoDate := "2025-10-27"
    tgeTimestamp := none
    contributors := some 1837
    oversubscription := some 11.18
    isPermissionless := some true
    description := "Liquidity Optimizer For Solana"
    category := "DeFi/Lending"}

/-- Configuration entry for SOLO. -/
def tokSOLO : AssetInfo :=
  { name := "Solomon"
    mint := "SoLo9oxzLDpcq1dpqAgMwgce5WqkRDtNXK7EPnbmeta"
    icoPrice := 0.80
    launchPrice := some 0.80
    committedUsd := some 102932673
    icoRaiseUsd := 8000000
    minRaiseUsd := some 2000000
    allowanceUsd := some 100000
    saleTokens := 10000000
    totalSupply := 25800000
    icoDate := "2025-11-18"
    tgeTimestamp := none
    contributors := some 6604
    oversubscription := some 51.47
    isPermissionless := some false
    description := "The composable dollar that always earns"
    category := "Stablecoin/Yield"}

/-- The static configuration dict `METADAO_TOKENS`, in its insertion
(iteration) order. -/
def METADAO_TOKENS : List (String × AssetInfo) :=
  [("MTNC", tokMTNC), ("OMFG", tokOMFG), ("UMBRA", tokUMBRA), ("AVICI", tokAVICI), ("LOYAL", tokLOYAL), ("ZKLSOL", tokZKLSOL), ("PAYSTREAM", tokPAYSTREAM), ("SOLO", tokSOLO)]

/-- One flat output record of `get_all_token_data` (field names romanized
from the Korean dict keys of the source). Numeric dict values that are
always floats are wrapped in `some`; values that can be `None` stay
optional. -/
structure Record where
  symbol : String
  name : String
  category : String
  description : String
  mint : String
  pairAddress : String
  icoDate : String
  tgeTimestamp : Option ℚ
  permissionless : Bool
  icoSalePrice : Option ℚ
  launchPrice : Option ℚ
  committedUsd : Option ℚ
  raisedUsd : Option ℚ
  minRaiseUsd : Option ℚ
  allowanceUsd : Option ℚ
  contributors : Option ℚ
  oversubscription : Option ℚ
  saleTokens : Option ℚ
  totalSupply : Option ℚ
  saleRatioPct : Option ℚ
  currentPrice : Option ℚ
  priceChange24h : Option ℚ
  volume24h : Option ℚ
  liquidity : Option ℚ
  marketCap : Option ℚ
  fdv : Option ℚ
  ath : Option ℚ
  atl : Option ℚ
  roiX : Option ℚ
  roiPct : Option ℚ
  launchRoiX : Option ℚ
  launchRoiPct : Option ℚ
  athRoiX : Option ℚ
  athRoiPct : Option ℚ
  atlRoiX : Option ℚ
  atlRoiPct : Option ℚ
  price5m : Option ℚ
  price15m : Option ℚ
  price30m : Option ℚ
  price60m : Option ℚ
  roi5mX : Option ℚ
  roi5mPct : Option ℚ
  roi15mX : Option ℚ
  roi15mPct : Option ℚ
  roi30mX : Option ℚ
  roi30mPct : Option ℚ
  roi60mX : Option ℚ
  roi60mPct : Option ℚ
  saleValueNow : Option ℚ
  profitUsd : Option ℚ
  profitPct : Option ℚ

/-- `dex_data.get("pairAddress", "")`. -/
def dexPairAddress (dex_data : Option Pair) : String :=
  (dex_data.bind Pair.pairAddress).getD ""

/-- The candle series used for one asset: fetched for the selected pair
address only when that address is non-empty (`if pair_address:`), otherwise
the empty list initialized by the source. -/
def assetOhlcv (dex_data : Option Pair) (ohlcvOf : String → List (List ℚ)) :
    List (List ℚ) :=
  if dexPairAddress dex_data ≠ "" then ohlcvOf (dexPairAddress dex_data) else []

/-- The per-asset record assembly of `get_all_token_data` (loop body,
without the UI progress calls and the rate-limit sleep): `dex_data` is the
venue returned by the spot/venue provider (`{}` embedded as `none`) and
`ohlcvOf` is the candle provider. -/
def buildRecord (symbol : String) (info : AssetInfo) (dex_data : Option Pair)
    (ohlcvOf : String → List (List ℚ)) : Record :=
  let mint := info.mint
  let ico_price := info.icoPrice
  let tge_timestamp := info.tgeTimestamp
  let current_price := safe_float (dex_data.bind Pair.priceUsd) 0
  let pair_address := dexPairAddress dex_data
  let ohlcv_data := assetOhlcv dex_data ohlcvOf
  let ath_atl := calculate_ath_atl_from_ohlcv ohlcv_data
  let atl_all := ath_atl.2
  let ath_all :=
    if !(pytruthy ath_atl.1) && dex_data.isSome then some current_price
    else ath_atl.1
  let roi := calculate_roi (some current_price) (some ico_price)
  let ath_roi := calculate_roi ath_all (some ico_price)
  let atl_roi := calculate_roi atl_all (some ico_price)
  let tge_live := pytruthy tge_timestamp && !ohlcv_data.isEmpty
  let price_5m :=
    if tge_live then
      get_price_at_timestamp ohlcv_data (tge_timestamp.getD 0 + 300) 300
    else none
  let roi_5m :=
    if tge_live then calculate_roi price_5m (some ico_price) else (none, none)
  let price_15m :=
    if tge_live then
      get_price_at_timestamp ohlcv_data (tge_timestamp.getD 0 + 900) 300
    else none
  let roi_15m :=
    if tge_live then calculate_roi price_15m (some ico_price) else (none, none)
  let price_30m :=
    if tge_live then
      get_price_at_timestamp ohlcv_data (tge_timestamp.getD 0 + 1800) 300
    else none
  let roi_30m :=
    if tge_live then calculate_roi price_30m (some ico_price) else (none, none)
  let price_60m :=
    if tge_live then
      get_price_at_timestamp ohlcv_data (tge_timestamp.getD 0 + 3600) 300
    else none
  let roi_60m :=
    if tge_live then calculate_roi price_60m (some ico_price) else (none, none)
  let sale_tokens := info.saleTokens
  let total_supply := info.totalSupply
  let sale_ratio := if total_supply ≠ 0 then sale_tokens / total_supply * 100 else 0
  let price_change_24h := safe_float (dex_data.bind Pair.priceChangeH24) 0
  let volume_24h := safe_float (dex_data.bind Pair.volumeH24) 0
  let liquidity := safe_float (dex_data.bind Pair.liqUsd) 0
  let fdv :=
    if current_price ≠ 0 ∧ total_supply ≠ 0 then current_price * total_supply
    else 0
  let market_cap := safe_float (dex_data.bind Pair.marketCap) 0
  let sale_value_now := if current_price ≠ 0 then current_price * sale_tokens else 0
  let ico_raise := info.icoRaiseUsd
  let profit_usd := if ico_raise ≠ 0 then sale_value_now - ico_raise else 0
  let profit_pct := if ico_raise ≠ 0 then profit_usd / ico_raise * 100 else 0
  let committed_usd := info.committedUsd.getD ico_raise
  let min_raise_usd := info.minRaiseUsd.getD ico_raise
  let allowance_usd := info.allowanceUsd
  let contributors := info.contributors.getD 0
  let oversubscription := info.oversubscription.getD 1
  let is_permissionless := info.isPermissionless.getD false
  let launch_price := info.launchPrice
  let launch_roi :=
    if pytruthy launch_price && decide (ico_price ≠ 0) then
      calculate_roi launch_price (some ico_price)
    else (none, none)
  { symbol := symbol
    name := info.name
    category := info.category
    description := info.description
    mint := mint
    pairAddress := pair_address
    icoDate := info.icoDate
    tgeTimestamp := tge_timestamp
    permissionless := is_permissionless
    icoSalePrice := some ico_price
    launchPrice := launch_price
    committedUsd := some committed_usd
    raisedUsd := some ico_raise
    minRaiseUsd := some min_raise_usd
    allowanceUsd := allowance_usd
    contributors := some contributors
    oversubscription := some oversubscription
    saleTokens := some sale_tokens
    totalSupply := some total_supply
    saleRatioPct := some (pyRound2 sale_ratio)
    currentPrice := some current_price
    priceChange24h := some price_change_24h
    volume24h := some volume_24h
    liquidity := some liquidity
    marketCap := some market_cap
    fdv := some fdv
    ath := ath_all
    atl := atl_all
    roiX := roi.1
    roiPct := roi.2
    launchRoiX := launch_roi.1
    launchRoiPct := launch_roi.2
    athRoiX := ath_roi.1
    athRoiPct := ath_roi.2
    atlRoiX := atl_roi.1
    atlRoiPct := atl_roi.2
    price5m := price_5m
    price15m := price_15m
    price30m := price_30m
    price60m := price_60m
    roi5mX := roi_5m.1
    roi5mPct := roi_5m.2
    roi15mX := roi_15m.1
    roi15mPct := roi_15m.2
    roi30mX := roi_30m.1
    roi30mPct := roi_30m.2
    roi60mX := roi_60m.1
    roi60mPct := roi_60m.2
    saleValueNow := some sale_value_now
    profitUsd := some profit_usd
    profitPct := some (pyRound2 profit_pct) }

/-- The aggregation loop of `get_all_token_data`: one record per configured
asset, in configuration order; the venue provider is consulted by mint
address and the selected venue is passed to the record assembly. -/
def get_all_token_data (pairsOf : String → List Pair)
    (ohlcvOf : String → List (List ℚ)) : List Record :=
  METADAO_TOKENS.map
    (fun si => buildRecord si.1 si.2 (select_pair (pairsOf si.2.mint)) ohlcvOf)

theorem buildRecord_currentPrice (s : String) (info : AssetInfo)
    (dex : Option Pair) (f : String → List (List ℚ)) :
    (buildRecord s info dex f).currentPrice =
      some (safe_float (dex.bind Pair.priceUsd) 0) := rfl

theorem buildRecord_roiX (s : String) (info : AssetInfo)
    (dex : Option Pair) (f : String → List (List ℚ)) :
    (buildRecord s info dex f).roiX =
      (calculate_roi (some (safe_float (dex.bind Pair.priceUsd) 0))
        (some info.icoPrice)).1 := rfl

theorem buildRecord_roiPct (s : String) (info : AssetInfo)
    (dex : Option Pair) (f : String → List (List ℚ)) :
    (buildRecord s info dex f).roiPct =
      (calculate_roi (some (safe_float (dex.bind Pair.priceUsd) 0))
        (some info.icoPrice)).2 := rfl

theorem buildRecord_oversubscription (s : String) (info : AssetInfo)
    (dex : Option Pair) (f : String → List (List ℚ)) :
    (buildRecord s info dex f).oversubscription =
      some (info.oversubscription.getD 1) := rfl

theorem buildRecord_profitUsd (s : String) (info : AssetInfo)
    (dex : Option Pair) (f : String → List (List ℚ)) :
    (buildRecord s info dex f).profitUsd =
      some (if info.icoRaiseUsd ≠ 0 then
              (if safe_float (dex.bind Pair.priceUsd) 0 ≠ 0 then
                safe_float (dex.bind Pair.priceUsd) 0 * info.saleTokens
              else 0) - info.icoRaiseUsd
            else 0) := rfl

theorem buildRecord_ath (s : String) (info : AssetInfo)
    (dex : Option Pair) (f : String → List (List ℚ)) :
    (buildRecord s info dex f).ath =
      (if !(pytruthy (calculate_ath_atl_from_ohlcv (assetOhlcv dex f)).1)
          && dex.isSome
       then some (safe_float (dex.bind Pair.priceUsd) 0)
       else (calculate_ath_atl_from_ohlcv (assetOhlcv dex f)).1) := rfl

theorem buildRecord_atl (s : String) (info : AssetInfo)
    (dex : Option Pair) (f : String → List (List ℚ)) :
    (buildRecord s info dex f).atl =
      (calculate_ath_atl_from_ohlcv (assetOhlcv dex f)).2 := rfl

theorem buildRecord_athRoiX (s : String) (info : AssetInfo)
    (dex : Option Pair) (f : String → List (List ℚ)) :
    (buildRecord s info dex f).athRoiX =
      (calculate_roi
        (if !(pytruthy (calculate_ath_atl_from_ohlcv (assetOhlcv dex f)).1)
            && dex.isSome
         then some (safe_float (dex.bind Pair.priceUsd) 0)
         else (calculate_ath_atl_from_ohlcv (assetOhlcv dex f)).1)
        (some info.icoPrice)).1 := rfl

theorem buildRecord_athRoiPct (s : String) (info : AssetInfo)
    (dex : Option Pair) (f : String → List (List ℚ)) :
    (buildRecord s info dex f).athRoiPct =
      (calculate_roi
        (if !(pytruthy (calculate_ath_atl_from_ohlcv (assetOhlcv dex f)).1)
            && dex.isSome
         then some (safe_float (dex.bind Pair.priceUsd) 0)
         else (calculate_ath_atl_from_ohlcv (assetOhlcv dex f)).1)
        (some info.icoPrice)).2 := rfl

/-- C2, counterexample. The claim states that after a failed current-price
fetch the Record has `current_price = null`. In the source,
`current_price = safe_float(dex_data.get("priceUsd"))` coerces the missing
value to `0`, so the Record carries `0`, not null. -/
theorem C2_counterexample :
    (buildRecord "MTNC" tokMTNC none (fun _ => [])).currentPrice = some 0 ∧
      some (0 : ℚ) ≠ (none : Option ℚ) := by
  refine ⟨?_, by simp⟩
  rw [buildRecord_currentPrice]
  rfl

/-- C2: for every asset whose current-price provider fetch fails (the
adapter returns the empty result, embedded as `none`), the built Record has
`current_price = 0` (the missing value is coerced to zero by the
`safe_float` default, not kept as null) while both ROI fields are null; the
record build is a total function, so it cannot raise. -/
theorem C2_failed_fetch (s : String) (info : AssetInfo)
    (f : String → List (List ℚ)) :
    (buildRecord s info none f).currentPrice = some 0 ∧
    (buildRecord s info none f).roiX = none ∧
    (buildRecord s info none f).roiPct = none := by
  have h0 : safe_float ((none : Option Pair).bind Pair.priceUsd) 0 = 0 := rfl
  refine ⟨?_, ?_, ?_⟩
  · rw [buildRecord_currentPrice, h0]
  · rw [buildRecord_roiX, h0, calculate_roi_obs_zero]
  · rw [buildRecord_roiPct, h0, calculate_roi_obs_zero]

/-- C4, counterexample. The claim states the profit is undefined (null)
when the current price is absent. For MTNC with a failed fetch the source
computes `profit = 0 - ico_raise = -5758964`, which is not null. -/
theorem C4_counterexample :
    (buildRecord "MTNC" tokMTNC none (fun _ => [])).profitUsd =
        some (-5758964) ∧
      some (-5758964 : ℚ) ≠ (none : Option ℚ) := by
  refine ⟨?_, by simp⟩
  rw [buildRecord_profitUsd]
  norm_num [tokMTNC, safe_float]

/-- C4: for every configured asset (all of which have a non-zero raised
amount) and any provider response, the Record profit equals
`current_price * sale_tokens - raised` when the current price is present
(non-zero), and `0 - raised = -raised` when it is absent — the profit is
never null. -/
theorem C4_profit (si : String × AssetInfo) (hsi : si ∈ METADAO_TOKENS)
    (dex : Option Pair) (f : String → List (List ℚ)) :
    (buildRecord si.1 si.2 dex f).profitUsd =
      some ((if safe_float (dex.bind Pair.priceUsd) 0 ≠ 0 then
              safe_float (dex.bind Pair.priceUsd) 0 * si.2.saleTokens
             else 0) - si.2.icoRaiseUsd) := by
  have hraise : si.2.icoRaiseUsd ≠ 0 := by
    fin_cases hsi <;>
      norm_num [tokMTNC, tokOMFG, tokUMBRA, tokAVICI, tokLOYAL, tokZKLSOL,
        tokPAYSTREAM, tokSOLO]
  rw [buildRecord_profitUsd, if_pos hraise]

/-- C4, witness: the profit theorem applied to OMFG with a live quote of
`5` gives `5 * 10,000,000 - 1,118,102 = 48,881,898`. -/
theorem C4_witness :
    (buildRecord "OMFG" tokOMFG
        (some ⟨some 5, some "PA", some 1, none, none, none⟩)
        (fun _ => [])).profitUsd = some 48881898 := by
  have h := C4_profit ("OMFG", tokOMFG)
    (by
      unfold METADAO_TOKENS
      exact List.mem_cons_of_mem _ (List.mem_cons_self _ _))
    (some ⟨some 5, some "PA", some 1, none, none, none⟩) (fun _ => [])
  rw [h]
  norm_num [tokOMFG, safe_float]

/-- C5, counterexample. The claim states the reported oversubscription
equals `committed / min_raise` exactly. For OMFG the Record reports the
precomputed configuration value `3.73`, while
`1,118,102 / 300,000 = 3.72700666...` — the two differ. -/
theorem C5_counterexample :
    (buildRecord "OMFG" tokOMFG none (fun _ => [])).oversubscription =
        some 3.73 ∧
      (3.73 : ℚ) ≠ 1118102 / 300000 := by
  refine ⟨?_, by norm_num⟩
  rw [buildRecord_oversubscription]
  norm_num [tokOMFG]

/-- C5: for every configured asset the Record reports, as oversubscription,
`committed / min_raise` rounded to two decimal places when `min_raise > 0`,
and the fixed value `1.0` when no minimum raise was set (`min_raise <= 0`);
the reported value is the precomputed configuration constant, which agrees
with that rounding for all eight assets. -/
theorem C5_oversubscription (si : String × AssetInfo)
    (hsi : si ∈ METADAO_TOKENS) (dex : Option Pair)
    (f : String → List (List ℚ)) :
    (buildRecord si.1 si.2 dex f).oversubscription =
      some (if 0 < si.2.minRaiseUsd.getD si.2.icoRaiseUsd then
              pyRound2 (si.2.committedUsd.getD si.2.icoRaiseUsd /
                si.2.minRaiseUsd.getD si.2.icoRaiseUsd)
            else 1) := by
  rw [buildRecord_oversubscription]
  fin_cases hsi
  · simp only [tokMTNC, Option.getD_some]
    rw [if_neg (by norm_num)]
    norm_num
  · simp only [tokOMFG, Option.getD_some]
    rw [if_pos (by norm_num : (0 : ℚ) < 300000),
      pyRound2_eq_high ((1118102 : ℚ) / 300000) 372 (by norm_num) (by norm_num)]
    norm_num
  · simp only [tokUMBRA, Option.getD_some]
    rw [if_pos (by norm_num : (0 : ℚ) < 750000),
      pyRound2_eq_low ((154943746 : ℚ) / 750000) 20659 (by norm_num) (by norm_num)]
    norm_num
  · simp only [tokAVICI, Option.getD_some]
    rw [if_pos (by norm_num : (0 : ℚ) < 2000000),
      pyRound2_eq_high ((34230976 : ℚ) / 2000000) 1711 (by norm_num) (by norm_num)]
    norm_num
  · simp only [tokLOYAL, Option.getD_some]
    rw [if_pos (by norm_num : (0 : ℚ) < 500000),
      pyRound2_eq_high ((75898233 : ℚ) / 500000) 15179 (by norm_num) (by norm_num)]
    norm_num
  · simp only [tokZKLSOL, Option.getD_some]
    rw [if_pos (by norm_num : (0 : ℚ) < 300000),
      pyRound2_eq_low ((14886359 : ℚ) / 300000) 4962 (by norm_num) (by norm_num)]
    norm_num
  · simp only [tokPAYSTREAM, Option.getD_some]
    rw [if_pos (by norm_num : (0 : ℚ) < 550000),
      pyRound2_eq_low ((6149247 : ℚ) / 550000) 1118 (by norm_num) (by norm_num)]
    norm_num
  · simp only [tokSOLO, Option.getD_some]
    rw [if_pos (by norm_num : (0 : ℚ) < 2000000),
      pyRound2_eq_high ((102932673 : ℚ) / 2000000) 5146 (by norm_num) (by norm_num)]
    norm_num

/-- C5, witness: the theorem applied to SOLO — the reported `51.47` is the
two-decimal rounding of `102,932,673 / 2,000,000 = 51.4663...`. -/
theorem C5_witness :
    (buildRecord "SOLO" tokSOLO none (fun _ => [])).oversubscription =
      some (5147 / 100) := by
  have h := C5_oversubscription ("SOLO", tokSOLO) (by simp [METADAO_TOKENS])
    none (fun _ => [])
  rw [h]
  simp only [tokSOLO, Option.getD_some]
  rw [if_pos (by norm_num : (0 : ℚ) < 2000000),
    pyRound2_eq_high ((102932673 : ℚ) / 2000000) 5146 (by norm_num) (by norm_num)]
  norm_num

/-- C9: the aggregator is a deterministic function of the static
configuration and the provider responses — two runs with identical venue
and candle provider responses produce identical record lists (all state is
explicit; the embedding passes the providers as inputs). -/
theorem C9_determinism (p1 p2 : String → List Pair)
    (o1 o2 : String → List (List ℚ))
    (hp : ∀ m, p1 m = p2 m) (ho : ∀ a, o1 a = o2 a) :
    get_all_token_data p1 o1 = get_all_token_data p2 o2 := by
  rw [funext hp, funext ho]

/-- C9, witness: the determinism theorem applied to two runs with the same
all-failing providers. -/
theorem C9_witness :
    get_all_token_data (fun _ => []) (fun _ => []) =
      get_all_token_data (fun _ => []) (fun _ => []) :=
  C9_determinism _ _ _ _ (fun _ => rfl) (fun _ => rfl)

/-- C10, counterexample. The claim states that when the candle series
yields no ATH while the quote is non-empty, the ATL "stays null". With a
quote of `5` and a single candle `[0, 1, 0, 2, 3, 0]` (high `0` is invalid,
low `2` is valid), the extrema calculator yields no ATH, yet the Record ATL
is `2`, not null. -/
theorem C10_counterexample :
    (calculate_ath_atl_from_ohlcv
        (assetOhlcv (some ⟨some 5, some "PA", some 100, none, none, none⟩)
          (fun _ => [[0, 1, 0, 2, 3, 0]]))).1 = none ∧
    (buildRecord "MTNC" tokMTNC
        (some ⟨some 5, some "PA", some 100, none, none, none⟩)
        (fun _ => [[0, 1, 0, 2, 3, 0]])).atl = some 2 ∧
    some (2 : ℚ) ≠ (none : Option ℚ) := by
  have heval :
      calculate_ath_atl_from_ohlcv
        (assetOhlcv (some ⟨some 5, some "PA", some 100, none, none, none⟩)
          (fun _ => [[0, 1, 0, 2, 3, 0]])) = (none, some 2) := by
    norm_num [assetOhlcv, dexPairAddress, calculate_ath_atl_from_ohlcv,
      highOk, lowOk, cfield, pymax, pymin, List.filterMap_cons]
    intro h
    exact absurd h (by simp)
  refine ⟨by rw [heval], ?_, by simp⟩
  rw [buildRecord_atl, heval]

/-- C10: for every asset whose candle series yields no ATH (the extrema
calculator returns a null high) while the venue fetch returned a non-empty
quote, the Record ATH is set to the current price (so the ATH ROI fields
equal the current-price ROI fields), while the ATL keeps whatever the
extrema calculator returned for the low side. -/
theorem C10_ath_fallback (s : String) (info : AssetInfo) (pr : Pair)
    (f : String → List (List ℚ))
    (hath : (calculate_ath_atl_from_ohlcv (assetOhlcv (some pr) f)).1 = none) :
    (buildRecord s info (some pr) f).ath =
        some (safe_float pr.priceUsd 0) ∧
      (buildRecord s info (some pr) f).athRoiX =
        (buildRecord s info (some pr) f).roiX ∧
      (buildRecord s info (some pr) f).athRoiPct =
        (buildRecord s info (some pr) f).roiPct ∧
      (buildRecord s info (some pr) f).atl =
        (calculate_ath_atl_from_ohlcv (assetOhlcv (some pr) f)).2 := by
  refine ⟨?_, ?_, ?_, buildRecord_atl _ _ _ _⟩
  · rw [buildRecord_ath, hath]
    rfl
  · rw [buildRecord_athRoiX, buildRecord_roiX, hath]
    rfl
  · rw [buildRecord_athRoiPct, buildRecord_roiPct, hath]
    rfl

/-- C10, witness: the fallback theorem applied to a concrete quote of `5`
and a candle series with no valid high: the ATH becomes the current price
`5` and the ATL keeps the calculator low `2`. -/
theorem C10_witness :
    (buildRecord "MTNC" tokMTNC
        (some ⟨some 5, some "PA", some 100, none, none, none⟩)
        (fun _ => [[0, 1, 0, 2, 3, 0]])).ath = some 5 ∧
    (buildRecord "MTNC" tokMTNC
        (some ⟨some 5, some "PA", some 100, none, none, none⟩)
        (fun _ => [[0, 1, 0, 2, 3, 0]])).atl = some 2 := by
  have heval :
      calculate_ath_atl_from_ohlcv
        (assetOhlcv (some ⟨some 5, some "PA", some 100, none, none, none⟩)
          (fun _ => [[0, 1, 0, 2, 3, 0]])) = (none, some 2) := by
    norm_num [assetOhlcv, dexPairAddress, calculate_ath_atl_from_ohlcv,
      highOk, lowOk, cfield, pymax, pymin, List.filterMap_cons]
    intro h
    exact absurd h (by simp)
  have h := C10_ath_fallback "MTNC" tokMTNC
    ⟨some 5, some "PA", some 100, none, none, none⟩
    (fun _ => [[0, 1, 0, 2, 3, 0]]) (by rw [heval])
  refine ⟨?_, ?_⟩
  · rw [h.1]
    rfl
  · rw [h.2.2.2, heval]

/-!
Fundraising Metrics: the allocation-rate logic of
`render_profit_simulation`.
-/

/-- The comparison-mode allocation rate (source lines 1473-1481, with the
allocation checkbox on): `raised / committed` when `committed > 0`, else
`1.0`. -/
def allocation_rate (raised committed : ℚ) : ℚ :=
  if 0 < committed then raised / committed else 1

/-- The single-token-mode allocation rate, in percent (source lines
1337-1343): `raised / committed * 100` when `committed > 0`, else `100`. -/
def actual_allocation_rate_pct (raised committed : ℚ) : ℚ :=
  if 0 < committed then raised / committed * 100 else 100

/-- The comparison-mode effective investment:
`investment * allocation_rate`. -/
def effective_contribution (investment raised committed : ℚ) : ℚ :=
  investment * allocation_rate raised committed

/-- The single-token-mode effective investment:
`investment * (actual_allocation_rate / 100)`. -/
def effective_investment_single (investment raised committed : ℚ) : ℚ :=
  investment * (actual_allocation_rate_pct raised committed / 100)

/-- C8: the allocation rate is `raised / committed` when `committed > 0`
and `1.0` otherwise; the effective contribution of a requested amount is
`requested * allocation_rate`; and the percent-based single-token path
computes the same effective amount as the fraction-based comparison path. -/
theorem C8_allocation (investment raised committed : ℚ) :
    (0 < committed → allocation_rate raised committed = raised / committed) ∧
    (¬ 0 < committed → allocation_rate raised committed = 1) ∧
    effective_contribution investment raised committed =
      investment * allocation_rate raised committed ∧
    effective_investment_single investment raised committed =
      effective_contribution investment raised committed := by
  refine ⟨fun h => by rw [allocation_rate, if_pos h],
    fun h => by rw [allocation_rate, if_neg h], rfl, ?_⟩
  by_cases h : 0 < committed
  · rw [effective_investment_single, actual_allocation_rate_pct, if_pos h,
      effective_contribution, allocation_rate, if_pos h]
    ring
  · rw [effective_investment_single, actual_allocation_rate_pct, if_neg h,
      effective_contribution, allocation_rate, if_neg h]
    norm_num

/-- C8, witness: the theorem applied at the spec example
`allocation_rate(raised=750,000, committed=1,500,000) = 0.5`, and the
percent path agreeing with the fraction path there. -/
theorem C8_witness :
    allocation_rate 750000 1500000 = 1/2 ∧
      effective_investment_single 1000 750000 1500000 =
        1000 * allocation_rate 750000 1500000 := by
  constructor
  · rw [(C8_allocation 1000 750000 1500000).1 (by norm_num)]
    norm_num
  · rw [(C8_allocation 1000 750000 1500000).2.2.2]
    exact (C8_allocation 1000 750000 1500000).2.2.1
